import Mathlib

/-!
Verification of the kubeflow/notebooks crud-backend and release tooling.

Shallow embedding of:
- `crud_backend/api/pvc.py` (guarded PVC operations),
- `crud_backend/settings.py` (the disable-auth flag),
- `volumes/backend/entrypoint.py` (config and UI-flavor dispatch),
- `tensorboards/backend/app/routes/get.py` (list route),
- `releasing/update-manifests-images.py` (kustomization image updater).

Stateful Python code is embedded as explicit state/trace passing; exceptions
become `Except`; external collaborators (the Kubernetes client adapter and the
authorization gate internals) are parameters of the embedding, so theorems
quantify over their behaviour.
-/

namespace KubeflowNotebooks

/-! ## Error taxonomy (spec section 7) -/

/-- Error taxonomy of the crud backend: the gate raises `unauthorized`; the
other constructors model the remaining upstream failure classes. -/
inductive CrudError where
  | unauthorized
  | notFound
  | conflict
  | upstreamError
deriving DecidableEq, Repr

/-! ## Embedding of `crud_backend/api/pvc.py`

The adapter (`v1_core`) and the gate (`authz.ensure_authorized`) live outside
this file in the source tree; the operations below are parameterized by their
behaviour via `Env`.  Each operation returns its result together with a trace
of the events it performed, in order, so that "the gate is invoked before the
adapter" is a statement about the trace. -/

/-- Calls made to the Resource Client Adapter (`v1_core`), one constructor per
adapter function used by `pvc.py`; `α` is the type of PVC payloads. -/
inductive AdapterCall (α : Type) where
  | createPVC (ns : String) (pvc : α) (dryRun : Option String)
  | deletePVC (pvc : String) (ns : String)
  | listPVC (ns : String)
  | patchPVC (nm : String) (ns : String) (pvc : α)
deriving DecidableEq, Repr

/-- Events a guarded operation performs, in order: a gate check with its five
arguments, or an adapter call. -/
inductive Event (α : Type) where
  | gateCheck (verb group version resource ns : String)
  | adapterCall (c : AdapterCall α)
deriving DecidableEq, Repr

/-- True exactly on adapter-call events. -/
def Event.isAdapterCall : Event α → Bool
  | .adapterCall _ => true
  | .gateCheck _ _ _ _ _ => false

/-- The external collaborators of `pvc.py`: `ensure_authorized` is the
Authorization Gate (it either returns silently, `Except.ok`, or raises,
`Except.error`), and `adapter` is the Resource Client Adapter returning a
result of type `ρ` for each call. -/
structure Env (α ρ : Type) where
  ensure_authorized : String → String → String → String → String → Except CrudError Unit
  adapter : AdapterCall α → ρ

/-- Embeds `create_pvc(pvc, namespace, dry_run=False)`: gate check for
(create, "", v1, persistentvolumeclaims, namespace) first, then the adapter
create call with dry-run mode "All" when `dry_run` is set and `none` (omitted)
otherwise.  In Python `dry_run` defaults to `false`. -/
def create_pvc (env : Env α ρ) (pvc : α) (ns : String) (dry_run : Bool) :
    Except CrudError ρ × List (Event α) :=
  match env.ensure_authorized "create" "" "v1" "persistentvolumeclaims" ns with
  | .error e => (.error e, [.gateCheck "create" "" "v1" "persistentvolumeclaims" ns])
  | .ok _ =>
      let c : AdapterCall α := .createPVC ns pvc (if dry_run then some "All" else none)
      (.ok (env.adapter c),
        [.gateCheck "create" "" "v1" "persistentvolumeclaims" ns, .adapterCall c])

/-- Embeds `delete_pvc(pvc, namespace)`: gate check for delete, then the
adapter delete call.  `pvc` is the PVC name, a string. -/
def delete_pvc (env : Env α ρ) (pvc ns : String) :
    Except CrudError ρ × List (Event α) :=
  match env.ensure_authorized "delete" "" "v1" "persistentvolumeclaims" ns with
  | .error e => (.error e, [.gateCheck "delete" "" "v1" "persistentvolumeclaims" ns])
  | .ok _ =>
      let c : AdapterCall α := .deletePVC pvc ns
      (.ok (env.adapter c),
        [.gateCheck "delete" "" "v1" "persistentvolumeclaims" ns, .adapterCall c])

/-- Embeds `list_pvcs(namespace)`: gate check for list, then the adapter list
call. -/
def list_pvcs (env : Env α ρ) (ns : String) :
    Except CrudError ρ × List (Event α) :=
  match env.ensure_authorized "list" "" "v1" "persistentvolumeclaims" ns with
  | .error e => (.error e, [.gateCheck "list" "" "v1" "persistentvolumeclaims" ns])
  | .ok _ =>
      let c : AdapterCall α := .listPVC ns
      (.ok (env.adapter c),
        [.gateCheck "list" "" "v1" "persistentvolumeclaims" ns, .adapterCall c])

/-- Embeds `patch_pvc(name, namespace, pvc, auth=True)`: the gate check is
performed only when `auth` is true; the adapter patch call follows either
way.  In Python `auth` defaults to `true`. -/
def patch_pvc (env : Env α ρ) (nm ns : String) (pvc : α) (auth : Bool) :
    Except CrudError ρ × List (Event α) :=
  if auth then
    match env.ensure_authorized "patch" "" "v1" "persistentvolumeclaims" ns with
    | .error e => (.error e, [.gateCheck "patch" "" "v1" "persistentvolumeclaims" ns])
    | .ok _ =>
        let c : AdapterCall α := .patchPVC nm ns pvc
        (.ok (env.adapter c),
          [.gateCheck "patch" "" "v1" "persistentvolumeclaims" ns, .adapterCall c])
  else
    let c : AdapterCall α := .patchPVC nm ns pvc
    (.ok (env.adapter c), [.adapterCall c])

/-! ## Embedding of `crud_backend/settings.py`

Line 3 of the source reads
`DISABLE_AUTH = os.getenv("APP_DISABLE_AUTH", "false").lower == "true"`.
Note the missing call parentheses: `.lower` is an attribute access producing
the bound method object, which is then compared with `==` to the string
"true".  To embed this faithfully we model the relevant fragment of Python
values: strings and bound-method objects, with Python equality between
them. -/

/-- A Python value relevant to `settings.py`: a string, or a bound method
object such as `"false".lower` (receiver plus method name). -/
inductive PyVal where
  | pyStr (s : String)
  | pyBoundMethod (receiver : String) (methodName : String)
deriving DecidableEq, Repr

/-- Python `==` on these values: strings compare by content, bound methods by
receiver and method; a bound method never equals a string. -/
def pyEq : PyVal → PyVal → Bool
  | .pyStr a, .pyStr b => a == b
  | .pyBoundMethod r m, .pyBoundMethod r2 m2 => r == r2 && m == m2
  | _, _ => false

/-- The attribute access `s.lower` (no call): the bound method object. -/
def str_lower_attr (s : String) : PyVal :=
  .pyBoundMethod s "lower"

/-- `os.getenv(key, default)` over an environment mapping. -/
def os_getenv (env : String → Option String) (key dflt : String) : String :=
  (env key).getD dflt

/-- Embeds `settings.py` line 3 exactly as written: the bound method object
`os.getenv("APP_DISABLE_AUTH", "false").lower` compared with `==` to the
string "true". -/
def DISABLE_AUTH (env : String → Option String) : Bool :=
  pyEq (str_lower_attr (os_getenv env "APP_DISABLE_AUTH" "false")) (.pyStr "true")

/-- Modelled from the spec: the intended disable-auth flag, a case-insensitive
comparison of the `APP_DISABLE_AUTH` value with "true" (the spec says the flag
set to "true" short-circuits the gate to always-allow). -/
def DISABLE_AUTH_spec (env : String → Option String) : Bool :=
  ((os_getenv env "APP_DISABLE_AUTH" "false").data.map Char.toLower) == "true".data

/-- A concrete process environment with `APP_DISABLE_AUTH` set to "true". -/
def envAuthDisabled : String → Option String :=
  fun key => if key == "APP_DISABLE_AUTH" then some "true" else none

/-! ## Embedding of `volumes/backend/entrypoint.py` -/

/-- The two config classes the entrypoint dispatches to. -/
inductive ConfigClass where
  | DevConfig
  | ProdConfig
deriving DecidableEq, Repr

/-- Modelled from the spec: the `BackendMode` enumeration lives in
`crud_backend/config.py`, which is not among the sources; its four mode
strings are taken from the spec and claim wording (development,
development-full, production, production-full). -/
inductive BackendMode where
  | DEVELOPMENT
  | DEVELOPMENT_FULL
  | PRODUCTION
  | PRODUCTION_FULL
deriving DecidableEq, Repr

/-- Modelled from the spec: the string value of each backend mode. -/
def BackendMode.value : BackendMode → String
  | .DEVELOPMENT => "development"
  | .DEVELOPMENT_FULL => "development-full"
  | .PRODUCTION => "production"
  | .PRODUCTION_FULL => "production-full"

/-- The `config_classes` dictionary of `get_config`, as an association
list. -/
def config_classes : List (String × ConfigClass) :=
  [ (BackendMode.DEVELOPMENT.value, .DevConfig),
    (BackendMode.DEVELOPMENT_FULL.value, .DevConfig),
    (BackendMode.PRODUCTION.value, .ProdConfig),
    (BackendMode.PRODUCTION_FULL.value, .ProdConfig) ]

/-- Python `dict.get` over an association list (keys here are distinct, so
first-match lookup agrees with the dictionary). -/
def dict_get (key : String) : List (String × ConfigClass) → Option ConfigClass
  | [] => none
  | (k, v) :: rest => if key == k then some v else dict_get key rest

/-- Embeds `get_config(mode)`: look the mode up in `config_classes`; raise
`RuntimeError` (embedded as `Except.error` with the message) when absent.
Configuration classes carry no payload here, so instantiation `cfg_class()`
is the identity on the tag. -/
def get_config (mode : String) : Except String ConfigClass :=
  match dict_get mode config_classes with
  | some c => .ok c
  | none => .error "Backend mode is not implemented"

/-- Outcome of the module-level UI-flavor dispatch: an app created by the
chosen factory, or `sys.exit` with a code. -/
inductive AppStart where
  | started (flavor : String) (appName : String)
  | exited (code : Nat)
deriving DecidableEq, Repr

/-- Embeds entrypoint lines 35 to 41: dispatch on `UI_FLAVOR`, calling the
default factory, the rok factory, or `sys.exit(1)`. -/
def select_app (ui_flavor appName : String) : AppStart :=
  if ui_flavor == "default" then .started "default" appName
  else if ui_flavor == "rok" then .started "rok" appName
  else .exited 1

/-! ## Embedding of `tensorboards/backend/app/routes/get.py` -/

/-- The dictionary returned by `api.list_custom_rsrc`, restricted to the field
the route reads: its "items" list. -/
structure CustomRsrcList (τ : Type) where
  items : List τ
deriving DecidableEq, Repr

/-- The uniform JSON success envelope. -/
structure SuccessResponse (π : Type) where
  success : Bool
  key : String
  content : List π
deriving DecidableEq, Repr

/-- Modelled from the spec: `api.success_response` is not among the sources;
per the spec it wraps the payload under its kind key with `success: true`. -/
def success_response (key : String) (content : List π) : SuccessResponse π :=
  ⟨true, key, content⟩

/-- Embeds the `get_tensorboards(namespace)` route: list the custom resources,
map `utils.parse_tensorboard` over the items in order (the Python list
comprehension), and wrap in a success envelope.  The backend listing and the
parser live outside the sources and are parameters. -/
def get_tensorboards (list_custom_rsrc : String → String → String → String → CustomRsrcList τ)
    (parse_tensorboard : τ → π) (ns : String) : SuccessResponse π :=
  let tensorboards := list_custom_rsrc "tensorboard.kubeflow.org" "v1alpha1" "tensorboards" ns
  success_response "tensorboards" (tensorboards.items.map parse_tensorboard)

/-! ## Embedding of `releasing/update-manifests-images.py`

The updater loads each application kustomization file, patches its `images`
list in memory, and writes it back.  The embedding below is the in-memory
transformation of one `images` list; file I/O and YAML round-tripping are
elided. -/

/-- A kustomization image entry: the matching key `name`, the optional
`newName` and `newTag` keys (absent keys are `none`), and any other mapping
entries, which the updater never touches. -/
structure Image where
  name : String
  newName : Option String
  newTag : Option String
  extra : List (String × String)
deriving DecidableEq, Repr

/-- An entry of an application's `images` target list in the script's static
`applications` table: a `name` to match and a `newName` to install. -/
structure TargetImage where
  name : String
  newName : String
deriving DecidableEq, Repr

/-- The inner `for image in images` loop with its `found` flag and `break`:
update the first entry whose `name` equals the target's, returning `none` when
no entry matches. -/
def updateFirst (t : TargetImage) (tag : String) : List Image → Option (List Image)
  | [] => none
  | img :: rest =>
      if img.name == t.name then
        some ({ img with newName := some t.newName, newTag := some tag } :: rest)
      else
        (updateFirst t tag rest).map (fun r => img :: r)

/-- The body of the `for target_image in application["images"]` loop: update
the first matching entry in place, or append a fresh
`{name, newName, newTag}` entry when none matches. -/
def updateImages (images : List Image) (t : TargetImage) (tag : String) : List Image :=
  match updateFirst t tag images with
  | some updated => updated
  | none => images ++ [⟨t.name, some t.newName, some tag, []⟩]

/-- The per-file images-list transformation of `update_manifests_images`: fold
the target-image loop over the application's target list. -/
def update_manifests_images (images : List Image) (targets : List TargetImage)
    (tag : String) : List Image :=
  List.foldl (fun imgs t => updateImages imgs t tag) images targets

/-- The names of an application's target images. -/
def targetNames (targets : List TargetImage) : List String :=
  targets.map TargetImage.name

/-! ## Concrete instances used to evaluate the theorems -/

/-- An environment whose gate allows everything; payloads and adapter results
are naturals. -/
def allowAllEnv : Env Nat Nat :=
  ⟨fun _ _ _ _ _ => .ok (), fun _ => 0⟩

/-- An environment whose gate denies everything with `unauthorized`. -/
def denyAllEnv : Env Nat Nat :=
  ⟨fun _ _ _ _ _ => .error .unauthorized, fun _ => 0⟩

/-- A concrete custom-resource listing returning two items. -/
def sampleListFn : String → String → String → String → CustomRsrcList Nat :=
  fun _ _ _ _ => ⟨[10, 20]⟩

/-- A kustomization image entry unrelated to any target of the updater. -/
def imgA : Image :=
  ⟨"docker.io/other/app", some "docker.io/other/app", some "v1", [("digest", "sha256")]⟩

/-- A kustomization image entry matching the Jupyter web app target. -/
def imgB : Image :=
  ⟨"ghcr.io/kubeflow/notebooks/jupyter-web-app",
   some "ghcr.io/kubeflow/notebooks/jupyter-web-app", some "v1", []⟩

/-- The Jupyter web app target from the static `applications` table. -/
def tJupyter : TargetImage :=
  ⟨"ghcr.io/kubeflow/notebooks/jupyter-web-app",
   "ghcr.io/kubeflow/notebooks/jupyter-web-app"⟩

/-! ## Theorems -/

/-- C1: for every environment, payload, namespace and dry-run flag, each of
`create_pvc`, `delete_pvc` and `list_pvcs` performs its gate check (with the
correct verb/group/version/resource/namespace) as the first event of its
trace, and whenever the gate raises an error the operation returns that error
and its trace contains no adapter call — the cluster is untouched. -/
theorem C1_pvc_gate_before_adapter (α ρ : Type) (env : Env α ρ) (pvc : α)
    (nm ns : String) (dr : Bool) :
    ((create_pvc env pvc ns dr).2.head?
        = some (.gateCheck "create" "" "v1" "persistentvolumeclaims" ns)) ∧
    ((delete_pvc env nm ns : Except CrudError ρ × List (Event α)).2.head?
        = some (.gateCheck "delete" "" "v1" "persistentvolumeclaims" ns)) ∧
    ((list_pvcs env ns : Except CrudError ρ × List (Event α)).2.head?
        = some (.gateCheck "list" "" "v1" "persistentvolumeclaims" ns)) ∧
    (∀ e, env.ensure_authorized "create" "" "v1" "persistentvolumeclaims" ns = .error e →
        (create_pvc env pvc ns dr).1 = .error e ∧
        (create_pvc env pvc ns dr).2.all (fun ev => !ev.isAdapterCall) = true) ∧
    (∀ e, env.ensure_authorized "delete" "" "v1" "persistentvolumeclaims" ns = .error e →
        (delete_pvc env nm ns : Except CrudError ρ × List (Event α)).1 = .error e ∧
        (delete_pvc env nm ns : Except CrudError ρ × List (Event α)).2.all
          (fun ev => !ev.isAdapterCall) = true) ∧
    (∀ e, env.ensure_authorized "list" "" "v1" "persistentvolumeclaims" ns = .error e →
        (list_pvcs env ns : Except CrudError ρ × List (Event α)).1 = .error e ∧
        (list_pvcs env ns : Except CrudError ρ × List (Event α)).2.all
          (fun ev => !ev.isAdapterCall) = true) := by
  refine ⟨?_, ?_, ?_, ?_, ?_, ?_⟩
  · cases h : env.ensure_authorized "create" "" "v1" "persistentvolumeclaims" ns <;>
      simp [create_pvc, h]
  · cases h : env.ensure_authorized "delete" "" "v1" "persistentvolumeclaims" ns <;>
      simp [delete_pvc, h]
  · cases h : env.ensure_authorized "list" "" "v1" "persistentvolumeclaims" ns <;>
      simp [list_pvcs, h]
  · intro e he; simp [create_pvc, he, Event.isAdapterCall]
  · intro e he; simp [delete_pvc, he, Event.isAdapterCall]
  · intro e he; simp [list_pvcs, he, Event.isAdapterCall]

/-- Witness for C1: under the all-denying gate, `create_pvc` at a concrete
payload and namespace returns `unauthorized` and performs no adapter call. -/
theorem C1_pvc_gate_before_adapter_witness :
    (create_pvc denyAllEnv 0 "kubeflow-user" false).1 = .error .unauthorized ∧
    (create_pvc denyAllEnv 0 "kubeflow-user" false).2.all
      (fun ev => !ev.isAdapterCall) = true :=
  (C1_pvc_gate_before_adapter Nat Nat denyAllEnv 0 "pvc-1" "kubeflow-user" false).2.2.2.1
    .unauthorized rfl

/-- C2 (code bug): `settings.py` compares the bound method object
`os.getenv("APP_DISABLE_AUTH", "false").lower` — not the result of calling
it — to the string "true", so `DISABLE_AUTH` evaluates to false even when the
environment variable is exactly "true"; the spec-intended case-insensitive
comparison yields true on the same environment. -/
theorem C2_disable_auth_always_false :
    DISABLE_AUTH envAuthDisabled = false ∧ DISABLE_AUTH_spec envAuthDisabled = true := by
  exact ⟨rfl, rfl⟩

/-- Counterexample to C3 as stated: under the all-denying gate, `create_pvc`,
`delete_pvc` and `list_pvcs` return `unauthorized` with no adapter call for
every combination of their actual arguments at a concrete input — none of
them takes an `auth` flag, so none can skip the gate and call the adapter
directly, contrary to the claim that every resource-operation function
supports `auth := false`. -/
theorem C3_counterexample :
    (create_pvc denyAllEnv 0 "ns1" false).1 = .error .unauthorized ∧
    (create_pvc denyAllEnv 0 "ns1" false).2.all (fun ev => !ev.isAdapterCall) = true ∧
    (create_pvc denyAllEnv 0 "ns1" true).1 = .error .unauthorized ∧
    (create_pvc denyAllEnv 0 "ns1" true).2.all (fun ev => !ev.isAdapterCall) = true ∧
    (delete_pvc denyAllEnv "pvc-1" "ns1" : Except CrudError Nat × List (Event Nat)).1
        = .error .unauthorized ∧
    (delete_pvc denyAllEnv "pvc-1" "ns1" : Except CrudError Nat × List (Event Nat)).2.all
        (fun ev => !ev.isAdapterCall) = true ∧
    (list_pvcs denyAllEnv "ns1" : Except CrudError Nat × List (Event Nat)).1
        = .error .unauthorized ∧
    (list_pvcs denyAllEnv "ns1" : Except CrudError Nat × List (Event Nat)).2.all
        (fun ev => !ev.isAdapterCall) = true := by
  refine ⟨rfl, rfl, rfl, rfl, rfl, rfl, rfl, rfl⟩

/-- C3 amended: only `patch_pvc` takes the optional `auth` boolean (default
true): with `auth := false` it skips the gate entirely and calls the adapter
directly, and with `auth := true` the gate check comes first and a gate error
prevents any adapter call; `create_pvc`, `delete_pvc` and `list_pvcs` take no
`auth` parameter and always perform their gate check first. -/
theorem C3_amended_auth_flag (α ρ : Type) (env : Env α ρ) (nm ns : String)
    (pvc : α) (dr : Bool) :
    (patch_pvc env nm ns pvc false
        = (.ok (env.adapter (.patchPVC nm ns pvc)),
           [.adapterCall (.patchPVC nm ns pvc)])) ∧
    ((patch_pvc env nm ns pvc true).2.head?
        = some (.gateCheck "patch" "" "v1" "persistentvolumeclaims" ns)) ∧
    (∀ e, env.ensure_authorized "patch" "" "v1" "persistentvolumeclaims" ns = .error e →
        patch_pvc env nm ns pvc true
          = (.error e, [.gateCheck "patch" "" "v1" "persistentvolumeclaims" ns])) ∧
    ((create_pvc env pvc ns dr).2.head?
        = some (.gateCheck "create" "" "v1" "persistentvolumeclaims" ns)) ∧
    ((delete_pvc env nm ns : Except CrudError ρ × List (Event α)).2.head?
        = some (.gateCheck "delete" "" "v1" "persistentvolumeclaims" ns)) ∧
    ((list_pvcs env ns : Except CrudError ρ × List (Event α)).2.head?
        = some (.gateCheck "list" "" "v1" "persistentvolumeclaims" ns)) := by
  refine ⟨rfl, ?_, ?_, ?_, ?_, ?_⟩
  · cases h : env.ensure_authorized "patch" "" "v1" "persistentvolumeclaims" ns <;>
      simp [patch_pvc, h]
  · intro e he; simp [patch_pvc, he]
  · cases h : env.ensure_authorized "create" "" "v1" "persistentvolumeclaims" ns <;>
      simp [create_pvc, h]
  · cases h : env.ensure_authorized "delete" "" "v1" "persistentvolumeclaims" ns <;>
      simp [delete_pvc, h]
  · cases h : env.ensure_authorized "list" "" "v1" "persistentvolumeclaims" ns <;>
      simp [list_pvcs, h]

/-- Witness for the amended C3: under the all-denying gate, `patch_pvc` with
`auth := true` stops at the gate at a concrete input. -/
theorem C3_amended_auth_flag_witness :
    patch_pvc denyAllEnv "pvc-1" "ns1" 0 true
      = (.error .unauthorized,
         [.gateCheck "patch" "" "v1" "persistentvolumeclaims" "ns1"]) :=
  (C3_amended_auth_flag Nat Nat denyAllEnv "pvc-1" "ns1" 0 false).2.2.1
    .unauthorized rfl

/-- C4: when the gate allows, `create_pvc` with `dry_run := true` passes the
dry-run mode "All" to the adapter create call, with `dry_run := false` it
passes `none` (the mode is omitted), and in both cases the adapter result is
returned unmodified. -/
theorem C4_create_pvc_dry_run (α ρ : Type) (env : Env α ρ) (pvc : α) (ns : String)
    (h : env.ensure_authorized "create" "" "v1" "persistentvolumeclaims" ns = .ok ()) :
    create_pvc env pvc ns true
        = (.ok (env.adapter (.createPVC ns pvc (some "All"))),
           [.gateCheck "create" "" "v1" "persistentvolumeclaims" ns,
            .adapterCall (.createPVC ns pvc (some "All"))]) ∧
    create_pvc env pvc ns false
        = (.ok (env.adapter (.createPVC ns pvc none)),
           [.gateCheck "create" "" "v1" "persistentvolumeclaims" ns,
            .adapterCall (.createPVC ns pvc none)]) := by
  constructor <;> simp [create_pvc, h]

/-- Witness for C4: evaluated under the all-allowing gate at a concrete
payload and namespace. -/
theorem C4_create_pvc_dry_run_witness :
    create_pvc allowAllEnv 0 "ns1" true
        = (.ok (allowAllEnv.adapter (.createPVC "ns1" 0 (some "All"))),
           [.gateCheck "create" "" "v1" "persistentvolumeclaims" "ns1",
            .adapterCall (.createPVC "ns1" 0 (some "All"))]) ∧
    create_pvc allowAllEnv 0 "ns1" false
        = (.ok (allowAllEnv.adapter (.createPVC "ns1" 0 none)),
           [.gateCheck "create" "" "v1" "persistentvolumeclaims" "ns1",
            .adapterCall (.createPVC "ns1" 0 none)]) :=
  C4_create_pvc_dry_run Nat Nat allowAllEnv 0 "ns1" rfl

/-- C7: `get_config` maps the development and development-full modes to
`DevConfig`, the production and production-full modes to `ProdConfig`, and
errors on every other mode string; the UI-flavor dispatch starts the default
or rok app and calls `sys.exit(1)` on every other flavor. -/
theorem C7_config_and_flavor_dispatch :
    get_config "development" = .ok .DevConfig ∧
    get_config "development-full" = .ok .DevConfig ∧
    get_config "production" = .ok .ProdConfig ∧
    get_config "production-full" = .ok .ProdConfig ∧
    (∀ mode, mode ≠ "development" → mode ≠ "development-full" →
        mode ≠ "production" → mode ≠ "production-full" →
        get_config mode = .error "Backend mode is not implemented") ∧
    (∀ appName, select_app "default" appName = .started "default" appName) ∧
    (∀ appName, select_app "rok" appName = .started "rok" appName) ∧
    (∀ flavor appName, flavor ≠ "default" → flavor ≠ "rok" →
        select_app flavor appName = .exited 1) := by
  refine ⟨rfl, rfl, rfl, rfl, ?_, fun _ => rfl, fun _ => rfl, ?_⟩
  · intro mode h1 h2 h3 h4
    simp [get_config, dict_get, config_classes, BackendMode.value, h1, h2, h3, h4]
  · intro flavor appName h1 h2
    simp [select_app, h1, h2]

/-- Witness for C7: a concrete unknown backend mode errors and a concrete
unknown UI flavor exits with code 1. -/
theorem C7_config_and_flavor_dispatch_witness :
    get_config "staging" = .error "Backend mode is not implemented" ∧
    select_app "material" "Volumes Web App" = .exited 1 :=
  ⟨C7_config_and_flavor_dispatch.2.2.2.2.1 "staging"
      (by decide) (by decide) (by decide) (by decide),
   C7_config_and_flavor_dispatch.2.2.2.2.2.2.2 "material" "Volumes Web App"
      (by decide) (by decide)⟩

/-- C8: the content list produced by the `get_tensorboards` route has the same
length as the items list returned by the backend, and its i-th element is the
parser applied to the i-th backend item — backend order is preserved. -/
theorem C8_get_tensorboards_preserves_order (τ π : Type)
    (list_custom_rsrc : String → String → String → String → CustomRsrcList τ)
    (parse_tensorboard : τ → π) (ns : String) :
    (get_tensorboards list_custom_rsrc parse_tensorboard ns).content.length
        = (list_custom_rsrc "tensorboard.kubeflow.org" "v1alpha1" "tensorboards" ns).items.length ∧
    ∀ i (h1 : i < (list_custom_rsrc "tensorboard.kubeflow.org" "v1alpha1" "tensorboards"
          ns).items.length)
        (h2 : i < (get_tensorboards list_custom_rsrc parse_tensorboard ns).content.length),
      (get_tensorboards list_custom_rsrc parse_tensorboard ns).content.get ⟨i, h2⟩
        = parse_tensorboard
            ((list_custom_rsrc "tensorboard.kubeflow.org" "v1alpha1" "tensorboards"
              ns).items.get ⟨i, h1⟩) := by
  constructor
  · simp [get_tensorboards, success_response]
  · intro i h1 h2
    simp [get_tensorboards, success_response, List.get_eq_getElem, List.getElem_map]

/-- Witness for C8: a concrete two-item listing, parsed with successor, keeps
the second item in second position. -/
theorem C8_get_tensorboards_preserves_order_witness :
    (get_tensorboards sampleListFn Nat.succ "ns1").content.get ⟨1, by decide⟩
      = Nat.succ ((sampleListFn "tensorboard.kubeflow.org" "v1alpha1" "tensorboards"
          "ns1").items.get ⟨1, by decide⟩) :=
  (C8_get_tensorboards_preserves_order Nat Nat sampleListFn Nat.succ "ns1").2 1
    (by decide) (by decide)

/-! ## Lemmas on the manifest updater -/

/-- When no entry matches the target name, the inner loop finds nothing. -/
lemma updateFirst_eq_none (t : TargetImage) (tag : String) :
    ∀ l : List Image, (∀ img ∈ l, img.name ≠ t.name) → updateFirst t tag l = none := by
  intro l h
  induction l with
  | nil => rfl
  | cons x xs ih =>
      have hx : (x.name == t.name) = false :=
        beq_eq_false_iff_ne.mpr (h x (by simp))
      simp [updateFirst, hx]
      exact ih (fun img hm => h img (by simp [hm]))

/-- The inner loop updates exactly the first matching entry and leaves the
rest of the list as it was. -/
lemma updateFirst_match (t : TargetImage) (tag : String) :
    ∀ (pre : List Image) (img : Image) (post : List Image),
      (∀ p ∈ pre, p.name ≠ t.name) → img.name = t.name →
      updateFirst t tag (pre ++ img :: post)
        = some (pre ++ { img with newName := some t.newName, newTag := some tag } :: post) := by
  intro pre
  induction pre with
  | nil =>
      intro img post _ himg
      have hx : (img.name == t.name) = true := beq_iff_eq.mpr himg
      simp [updateFirst, hx]
  | cons x xs ih =>
      intro img post hpre himg
      have hx : (x.name == t.name) = false :=
        beq_eq_false_iff_ne.mpr (hpre x (by simp))
      simp [updateFirst, hx]
      exact ih img post (fun p hp => hpre p (by simp [hp])) himg

/-- Folding the single-target loop is the loop body. -/
lemma update_manifests_images_single (images : List Image) (t : TargetImage)
    (tag : String) :
    update_manifests_images images [t] tag = updateImages images t tag := rfl

/-- A successful inner-loop update preserves the list length. -/
lemma updateFirst_length (t : TargetImage) (tag : String) :
    ∀ l l2 : List Image, updateFirst t tag l = some l2 → l2.length = l.length := by
  intro l
  induction l with
  | nil => intro l2 h; exact absurd h (by simp [updateFirst])
  | cons x xs ih =>
      intro l2 h
      by_cases hx : (x.name == t.name) = true
      · rw [updateFirst, if_pos hx] at h
        cases h
        simp
      · rw [updateFirst, if_neg hx] at h
        cases hm : updateFirst t tag xs with
        | none => rw [hm] at h; exact absurd h (by simp)
        | some m =>
            rw [hm] at h
            cases h
            simp [ih m hm]

/-- A successful inner-loop update keeps every entry name in place and leaves
entries whose name differs from the target untouched. -/
lemma updateFirst_get? (t : TargetImage) (tag : String) :
    ∀ (l l2 : List Image), updateFirst t tag l = some l2 →
      ∀ i img, l.get? i = some img →
        ∃ img2, l2.get? i = some img2 ∧ img2.name = img.name ∧
          (img.name ≠ t.name → img2 = img) := by
  intro l
  induction l with
  | nil => intro l2 h; exact absurd h (by simp [updateFirst])
  | cons x xs ih =>
      intro l2 h i img himg
      by_cases hx : (x.name == t.name) = true
      · rw [updateFirst, if_pos hx] at h
        cases h
        cases i with
        | zero =>
            cases himg
            refine ⟨_, rfl, rfl, ?_⟩
            intro hne
            exact absurd (beq_iff_eq.mp hx) hne
        | succ j => exact ⟨img, himg, rfl, fun _ => rfl⟩
      · rw [updateFirst, if_neg hx] at h
        cases hm : updateFirst t tag xs with
        | none => rw [hm] at h; exact absurd h (by simp)
        | some m =>
            rw [hm] at h
            cases h
            cases i with
            | zero => cases himg; exact ⟨x, rfl, rfl, fun _ => rfl⟩
            | succ j => exact ih m hm j img himg

/-- The loop body never shortens the images list. -/
lemma updateImages_length (images : List Image) (t : TargetImage) (tag : String) :
    images.length ≤ (updateImages images t tag).length := by
  unfold updateImages
  cases h : updateFirst t tag images with
  | none => simp
  | some l2 => simp [updateFirst_length t tag images l2 h]

/-- The loop body keeps every pre-existing entry name in place and leaves
entries whose name differs from the target untouched. -/
lemma updateImages_get? (images : List Image) (t : TargetImage) (tag : String) :
    ∀ i img, images.get? i = some img →
      ∃ img2, (updateImages images t tag).get? i = some img2 ∧ img2.name = img.name ∧
        (img.name ≠ t.name → img2 = img) := by
  intro i img himg
  unfold updateImages
  cases h : updateFirst t tag images with
  | none =>
      have hlt : i < images.length := by
        rcases List.get?_eq_some.mp himg with ⟨hl, _⟩
        exact hl
      rw [List.get?_append hlt]
      exact ⟨img, himg, rfl, fun _ => rfl⟩
  | some l2 => exact updateFirst_get? t tag images l2 h i img himg

/-- Folding the target loop never shortens the images list. -/
lemma update_manifests_images_length (targets : List TargetImage) (tag : String) :
    ∀ images : List Image,
      images.length ≤ (update_manifests_images images targets tag).length := by
  induction targets with
  | nil => intro images; exact le_rfl
  | cons t ts ih =>
      intro images
      exact le_trans (updateImages_length images t tag) (ih (updateImages images t tag))

/-- Folding the target loop keeps every pre-existing entry name in place and
leaves entries whose name matches no target untouched. -/
lemma update_manifests_images_get? (targets : List TargetImage) (tag : String) :
    ∀ (images : List Image) i img, images.get? i = some img →
      ∃ img2, (update_manifests_images images targets tag).get? i = some img2 ∧
        img2.name = img.name ∧
        (img.name ∉ targetNames targets → img2 = img) := by
  induction targets with
  | nil => intro images i img himg; exact ⟨img, himg, rfl, fun _ => rfl⟩
  | cons t ts ih =>
      intro images i img himg
      obtain ⟨m1, h1, hn1, hu1⟩ := updateImages_get? images t tag i img himg
      obtain ⟨m2, h2, hn2, hu2⟩ := ih (updateImages images t tag) i m1 h1
      refine ⟨m2, h2, hn2.trans hn1, ?_⟩
      intro hnot
      have hmem : img.name ≠ t.name ∧ img.name ∉ targetNames ts := by
        constructor
        · intro he; exact hnot (by simp [targetNames, he])
        · intro hin; exact hnot (by simp [targetNames] at hin ⊢; exact Or.inr hin)
      have e1 : m1 = img := hu1 hmem.1
      have e2 : m2 = m1 := hu2 (by rw [e1]; exact hmem.2)
      rw [e2, e1]

/-- C5: running the updater for a target image over an images list either
updates in place the (first) entry whose `name` equals the target's name,
setting its `newTag` to the given tag and its `newName` to the target's
`newName`, or — when no entry matches — appends a fresh
`{name, newName, newTag}` entry at the end. -/
theorem C5_update_match_or_append (t : TargetImage) (tag : String) :
    (∀ images : List Image, (∀ img ∈ images, img.name ≠ t.name) →
        update_manifests_images images [t] tag
          = images ++ [⟨t.name, some t.newName, some tag, []⟩]) ∧
    (∀ (pre : List Image) (img : Image) (post : List Image),
        (∀ p ∈ pre, p.name ≠ t.name) → img.name = t.name →
        update_manifests_images (pre ++ img :: post) [t] tag
          = pre ++ { img with newName := some t.newName, newTag := some tag } :: post) := by
  constructor
  · intro images h
    rw [update_manifests_images_single, updateImages, updateFirst_eq_none t tag images h]
  · intro pre img post hpre himg
    rw [update_manifests_images_single, updateImages,
      updateFirst_match t tag pre img post hpre himg]

/-- Witness for C5: with the Jupyter target and tag "v2", an unrelated list
gets the fresh entry appended, and a list containing a matching entry gets
that entry retagged in place. -/
theorem C5_update_match_or_append_witness :
    update_manifests_images [imgA] [tJupyter] "v2"
        = [imgA] ++ [⟨tJupyter.name, some tJupyter.newName, some "v2", []⟩] ∧
    update_manifests_images ([imgA] ++ imgB :: []) [tJupyter] "v2"
        = [imgA] ++ { imgB with newName := some tJupyter.newName, newTag := some "v2" } :: [] :=
  ⟨(C5_update_match_or_append tJupyter "v2").1 [imgA] (by decide),
   (C5_update_match_or_append tJupyter "v2").2 [imgA] imgB [] (by decide) (by decide)⟩

/-- C6 (frame): the updater never shortens the list, keeps every pre-existing
entry at its position (so relative order is preserved, and new entries can
only sit at the end), keeps every entry name in place, and returns entries
whose name matches no target completely unchanged. -/
theorem C6_untouched_entries_frame (images : List Image) (targets : List TargetImage)
    (tag : String) :
    images.length ≤ (update_manifests_images images targets tag).length ∧
    ∀ i img, images.get? i = some img →
      ∃ img2, (update_manifests_images images targets tag).get? i = some img2 ∧
        img2.name = img.name ∧
        (img.name ∉ targetNames targets → img2 = img) :=
  ⟨update_manifests_images_length targets tag images,
   fun i img himg => update_manifests_images_get? targets tag images i img himg⟩

/-- Witness for C6: the unrelated entry `imgA` is returned unchanged at its
position by a run that appends a Jupyter entry. -/
theorem C6_untouched_entries_frame_witness :
    1 ≤ (update_manifests_images [imgA] [tJupyter] "v2").length ∧
    (update_manifests_images [imgA] [tJupyter] "v2").get? 0 = some imgA := by
  obtain ⟨img2, h, _, hu⟩ :=
    (C6_untouched_entries_frame [imgA] [tJupyter] "v2").2 0 imgA rfl
  refine ⟨(C6_untouched_entries_frame [imgA] [tJupyter] "v2").1, ?_⟩
  rw [hu (by decide)] at h
  exact h

/-- C9: when two entries share the target's name, only the first one is
rewritten (its `newName` and `newTag` set); the later duplicate — and
everything after the first match — is left exactly as it was. -/
theorem C9_first_duplicate_only (t : TargetImage) (tag : String)
    (pre mid post : List Image) (a b : Image)
    (hpre : ∀ p ∈ pre, p.name ≠ t.name) (ha : a.name = t.name) (hb : b.name = t.name) :
    update_manifests_images (pre ++ a :: (mid ++ b :: post)) [t] tag
      = pre ++ { a with newName := some t.newName, newTag := some tag }
          :: (mid ++ b :: post) := by
  rw [update_manifests_images_single, updateImages,
    updateFirst_match t tag pre a (mid ++ b :: post) hpre ha]

/-- Witness for C9: with two copies of the matching entry, only the first is
retagged. -/
theorem C9_first_duplicate_only_witness :
    update_manifests_images ([imgA] ++ imgB :: ([] ++ imgB :: [])) [tJupyter] "v2"
      = [imgA] ++ { imgB with newName := some tJupyter.newName, newTag := some "v2" }
          :: ([] ++ imgB :: []) :=
  C9_first_duplicate_only tJupyter "v2" [imgA] [] [] imgB imgB (by decide) rfl rfl

/-- The inner loop over an appended list: a match in the left part wins,
otherwise the search continues in the right part. -/
lemma updateFirst_append (t : TargetImage) (tag : String) (l r : List Image) :
    updateFirst t tag (l ++ r)
      = match updateFirst t tag l with
        | some l2 => some (l2 ++ r)
        | none => (updateFirst t tag r).map (fun r2 => l ++ r2) := by
  induction l with
  | nil =>
      simp only [List.nil_append, updateFirst]
      cases updateFirst t tag r <;> simp
  | cons x xs ih =>
      by_cases hx : (x.name == t.name) = true
      · simp [updateFirst, hx]
      · have e1 : updateFirst t tag (x :: (xs ++ r))
            = (updateFirst t tag (xs ++ r)).map (fun r2 => x :: r2) := by
          rw [updateFirst, if_neg hx]
        have e2 : updateFirst t tag (x :: xs)
            = (updateFirst t tag xs).map (fun r2 => x :: r2) := by
          rw [updateFirst, if_neg hx]
        rw [List.cons_append, e1, ih, e2]
        cases updateFirst t tag xs with
        | some l2 => simp
        | none => cases updateFirst t tag r <;> simp

/-- A list the inner loop maps to itself is mapped to itself again. -/
lemma updateFirst_self (t : TargetImage) (tag : String) :
    ∀ l l2 : List Image, updateFirst t tag l = some l2 →
      updateFirst t tag l2 = some l2 := by
  intro l
  induction l with
  | nil => intro l2 h; exact absurd h (by simp [updateFirst])
  | cons x xs ih =>
      intro l2 h
      by_cases hx : (x.name == t.name) = true
      · rw [updateFirst, if_pos hx] at h
        cases h
        rw [updateFirst, if_pos (by simpa using hx)]
      · rw [updateFirst, if_neg hx] at h
        cases hm : updateFirst t tag xs with
        | none => rw [hm] at h; exact absurd h (by simp)
        | some m =>
            rw [hm] at h
            cases h
            rw [updateFirst, if_neg hx, ih m hm]
            rfl

/-- The loop body is idempotent for a single target. -/
lemma updateImages_idem (images : List Image) (t : TargetImage) (tag : String) :
    updateImages (updateImages images t tag) t tag = updateImages images t tag := by
  unfold updateImages
  cases h : updateFirst t tag images with
  | some l2 => rw [updateFirst_self t tag images l2 h]
  | none =>
      rw [updateFirst_append t tag images [⟨t.name, some t.newName, some tag, []⟩], h]
      simp [updateFirst]

/-- A list fixed by the loop for target `t` has a first `t`-match, namely
itself: the no-match branch would append and grow the list. -/
lemma updateFirst_of_fixed (t : TargetImage) (tag : String) (l : List Image)
    (hfix : updateImages l t tag = l) : updateFirst t tag l = some l := by
  unfold updateImages at hfix
  cases h : updateFirst t tag l with
  | some l2 =>
      rw [h] at hfix
      have hl : l2 = l := hfix
      rw [hl]
  | none =>
      rw [h] at hfix
      have hlen := congrArg List.length hfix
      simp at hlen

/-- Being fixed for target `t` survives an inner-loop update for a target with
a different name. -/
lemma updateFirst_stable_ne (t s : TargetImage) (tag : String)
    (hne : s.name ≠ t.name) :
    ∀ l m : List Image, updateFirst t tag l = some l → updateFirst s tag l = some m →
      updateFirst t tag m = some m := by
  intro l
  induction l with
  | nil => intro m h; exact absurd h (by simp [updateFirst])
  | cons x xs ih =>
      intro m hfix hs
      by_cases hx : (x.name == t.name) = true
      · rw [updateFirst, if_pos hx] at hfix
        have hxeq : { x with newName := some t.newName, newTag := some tag } = x := by
          have := Option.some.inj hfix
          exact (List.cons.inj this).1
        have hxs : (x.name == s.name) = false := by
          have : x.name = t.name := beq_iff_eq.mp hx
          exact beq_eq_false_iff_ne.mpr (by rw [this]; exact fun he => hne he.symm)
        rw [updateFirst, if_neg (by simp [hxs])] at hs
        cases hm2 : updateFirst s tag xs with
        | none => rw [hm2] at hs; exact absurd hs (by simp)
        | some m2 =>
            rw [hm2] at hs
            cases hs
            rw [updateFirst, if_pos hx, hxeq]
      · rw [updateFirst, if_neg hx] at hfix
        cases hm : updateFirst t tag xs with
        | none => rw [hm] at hfix; exact absurd hfix (by simp)
        | some xs2 =>
            rw [hm] at hfix
            have hxs2 : xs2 = xs := by
              have := Option.some.inj hfix
              exact (List.cons.inj this).2
            rw [hxs2] at hm
            by_cases hxsname : (x.name == s.name) = true
            · rw [updateFirst, if_pos hxsname] at hs
              cases hs
              rw [updateFirst]
              have : ({ x with newName := some s.newName, newTag := some tag } : Image).name
                  = x.name := rfl
              rw [if_neg (by rw [this]; exact hx), hm]
              rfl
            · rw [updateFirst, if_neg hxsname] at hs
              cases hm2 : updateFirst s tag xs with
              | none => rw [hm2] at hs; exact absurd hs (by simp)
              | some m2 =>
                  rw [hm2] at hs
                  cases hs
                  rw [updateFirst, if_neg hx, ih m2 hm hm2]
                  rfl

/-- Being fixed by the loop body for target `t` survives a loop-body run for a
target with a different name. -/
lemma updateImages_stable_ne (t s : TargetImage) (tag : String)
    (hne : s.name ≠ t.name) (l : List Image)
    (hfix : updateImages l t tag = l) :
    updateImages (updateImages l s tag) t tag = updateImages l s tag := by
  have hfix2 : updateFirst t tag l = some l := updateFirst_of_fixed t tag l hfix
  unfold updateImages
  cases hs : updateFirst s tag l with
  | some m => rw [updateFirst_stable_ne t s tag hne l m hfix2 hs]
  | none =>
      rw [updateFirst_append t tag l [⟨s.name, some s.newName, some tag, []⟩], hfix2]

/-- Being fixed by the loop body for target `t` survives a whole fold over
targets none of which shares the name of `t`. -/
lemma update_manifests_images_stable (t : TargetImage) (tag : String) :
    ∀ (us : List TargetImage) (l : List Image),
      (∀ u ∈ us, u.name ≠ t.name) → updateImages l t tag = l →
      updateImages (update_manifests_images l us tag) t tag
        = update_manifests_images l us tag := by
  intro us
  induction us with
  | nil => intro l _ hfix; exact hfix
  | cons u us ih =>
      intro l hu hfix
      exact ih (updateImages l u tag) (fun v hv => hu v (by simp [hv]))
        (updateImages_stable_ne t u tag (hu u (by simp)) l hfix)

/-- After a full fold over targets with pairwise-distinct names, the result is
fixed by the loop body of every one of those targets. -/
lemma update_manifests_images_fixed_each (tag : String) :
    ∀ (ts : List TargetImage) (x : List Image),
      (ts.map TargetImage.name).Nodup →
      ∀ t ∈ ts, updateImages (update_manifests_images x ts tag) t tag
                  = update_manifests_images x ts tag := by
  intro ts
  induction ts with
  | nil => intro x _ t ht; exact absurd ht (by simp)
  | cons s ts ih =>
      intro x hnd t ht
      have hs : s.name ∉ ts.map TargetImage.name := (List.nodup_cons.mp hnd).1
      have hnd2 : (ts.map TargetImage.name).Nodup := (List.nodup_cons.mp hnd).2
      rcases List.mem_cons.mp ht with he | hin
      · subst he
        have : update_manifests_images x (t :: ts) tag
            = update_manifests_images (updateImages x t tag) ts tag := rfl
        rw [this]
        refine update_manifests_images_stable t tag ts (updateImages x t tag) ?_
          (updateImages_idem x t tag)
        intro u hu he
        exact hs (by rw [← he]; exact List.mem_map_of_mem TargetImage.name hu)
      · exact ih (updateImages x s tag) hnd2 t hin

/-- A fold over targets each of whose loop bodies fixes `y` returns `y`. -/
lemma update_manifests_images_of_fixed (tag : String) :
    ∀ (ts : List TargetImage) (y : List Image),
      (∀ t ∈ ts, updateImages y t tag = y) → update_manifests_images y ts tag = y := by
  intro ts
  induction ts with
  | nil => intro y _; rfl
  | cons t ts ih =>
      intro y h
      have h0 : updateImages y t tag = y := h t (by simp)
      have : update_manifests_images y (t :: ts) tag
          = update_manifests_images (updateImages y t tag) ts tag := rfl
      rw [this, h0]
      exact ih y (fun u hu => h u (by simp [hu]))

/-- C10: the per-file images-list transformation is idempotent — applying it
twice with the same tag gives the images list of a single application.  The
hypothesis that the target names are pairwise distinct holds for every
application of the static `applications` table (each lists one target). -/
theorem C10_idempotent (images : List Image) (targets : List TargetImage)
    (tag : String) (hnd : (targets.map TargetImage.name).Nodup) :
    update_manifests_images (update_manifests_images images targets tag) targets tag
      = update_manifests_images images targets tag :=
  update_manifests_images_of_fixed tag targets
    (update_manifests_images images targets tag)
    (fun t ht => update_manifests_images_fixed_each tag targets images hnd t ht)

/-- Witness for C10: a concrete double run with the Jupyter target. -/
theorem C10_idempotent_witness :
    update_manifests_images
        (update_manifests_images [imgA, imgB] [tJupyter] "v2") [tJupyter] "v2"
      = update_manifests_images [imgA, imgB] [tJupyter] "v2" :=
  C10_idempotent [imgA, imgB] [tJupyter] "v2" (by decide)

end KubeflowNotebooks
